import Mathlib

/-!
Verification of the Session Conversation & Prompt-Cache Orchestrator:
a shallow embedding of `part1_core_agent/conversation_manager.py` and
`part1_core_agent/librarian_claude_agent.py`.

Python dictionaries become association lists, `time.time()` becomes an
explicit `now : Nat` argument, and the external model / retrieval calls
become explicit parameters carrying their results.
-/

namespace Librarian

/-- One conversation turn, as built by `ConversationManager.add_turn`
(`conversation_manager.py` lines 38-44).  Tool-call dictionaries and skill
names are abstracted to strings; their internal structure is never inspected
by the orchestrator. -/
structure Turn where
  timestamp : Nat
  user_message : String
  agent_response : String
  tool_calls : List String
  skills_used : List String
deriving DecidableEq

/-- Lookup in a per-session map (`self.conversations.get(session_id, ...)`). -/
def conv_find (l : List (String × List Turn)) (sid : String) : Option (List Turn) :=
  (l.find? (fun e => e.1 == sid)).map (fun e => e.2)

/-- Overwriting insert in a per-session map (`self.conversations[sid] = v`). -/
def conv_set (l : List (String × List Turn)) (sid : String) (v : List Turn) :
    List (String × List Turn) :=
  (sid, v) :: l.filter (fun e => !(e.1 == sid))

/-- Lookup in a two-level dict `d[session_id][key]`. -/
def cache_find {α : Type} (l : List (String × String × α)) (sid k : String) : Option α :=
  (l.find? (fun e => e.1 == sid && e.2.1 == k)).map (fun e => e.2.2)

/-- Overwriting insert `d[session_id][key] = v`. -/
def cache_set {α : Type} (l : List (String × String × α)) (sid k : String) (v : α) :
    List (String × String × α) :=
  (sid, k, v) :: l.filter (fun e => !(e.1 == sid && e.2.1 == k))

/-- Deletion `del d[session_id][key]`. -/
def cache_del {α : Type} (l : List (String × String × α)) (sid k : String) :
    List (String × String × α) :=
  l.filter (fun e => !(e.1 == sid && e.2.1 == k))

/-- Deletion of a whole session namespace `del d[session_id]`. -/
def cache_clear {α : Type} (l : List (String × String × α)) (sid : String) :
    List (String × String × α) :=
  l.filter (fun e => !(e.1 == sid))

/-- State of `ConversationManager` (`conversation_manager.py` lines 18-23).
Cached values are the documentation-context strings the agent stores. -/
structure ConvManager where
  conversations : List (String × List Turn)
  session_cache : List (String × String × String)
  cache_timestamps : List (String × String × Nat)
  session_start_times : List (String × Nat)
  cache_ttl : Nat
deriving DecidableEq

/-- Fresh manager with the given TTL (`__init__`, default 300). -/
def mk_manager (ttl : Nat) : ConvManager :=
  { conversations := [], session_cache := [], cache_timestamps := [],
    session_start_times := [], cache_ttl := ttl }

/-- `get_conversation` (lines 48-51): `self.conversations.get(session_id, [])`. -/
def ConvManager.get_conversation (m : ConvManager) (sid : String) : List Turn :=
  (conv_find m.conversations sid).getD []

/-- `add_turn` (lines 25-46): record the session start time on first contact,
then append the turn to the session history (defaultdict semantics). -/
def ConvManager.add_turn (m : ConvManager) (sid u a : String)
    (tc sk : List String) (now : Nat) : ConvManager :=
  let m1 :=
    if (m.session_start_times.find? (fun e => e.1 == sid)).isSome then m
    else { m with session_start_times := m.session_start_times ++ [(sid, now)] }
  let turn : Turn := ⟨now, u, a, tc, sk⟩
  { m1 with conversations :=
      conv_set m1.conversations sid (((conv_find m1.conversations sid).getD []) ++ [turn]) }

/-- Python slice `conversation[-n:]`: for `n = 0` this is `conversation[0:]`,
i.e. the whole list; for `n ≥ 1` it is the last `min n len` elements. -/
def py_slice_last (l : List Turn) (n : Nat) : List Turn :=
  if n = 0 then l else l.drop (l.length - n)

/-- `get_last_n_turns` (lines 53-57):
`conversation[-n:] if len(conversation) > n else conversation`. -/
def ConvManager.get_last_n_turns (m : ConvManager) (sid : String) (n : Nat) : List Turn :=
  let conversation := m.get_conversation sid
  if n < conversation.length then py_slice_last conversation n else conversation

/-- `set_session_cache` (lines 59-63): store the value and its write time. -/
def ConvManager.set_session_cache (m : ConvManager) (sid k v : String) (now : Nat) :
    ConvManager :=
  { m with session_cache := cache_set m.session_cache sid k v,
           cache_timestamps := cache_set m.cache_timestamps sid k now }

/-- `get_session_cache` (lines 65-80): absent keys give `None`; an entry with
`now - written > ttl` is deleted from both dicts (lazy eviction) and `None` is
returned; otherwise the value is returned and the state is untouched.
The timestamp read `self.cache_timestamps[session_id][key]` is total here via
`getD 0`; the two dicts are always updated in lockstep by `set`/`del`. -/
def ConvManager.get_session_cache (m : ConvManager) (sid k : String) (now : Nat) :
    Option String × ConvManager :=
  match cache_find m.session_cache sid k with
  | none => (none, m)
  | some v =>
    let written := (cache_find m.cache_timestamps sid k).getD 0
    if m.cache_ttl < now - written then
      (none, { m with session_cache := cache_del m.session_cache sid k,
                      cache_timestamps := cache_del m.cache_timestamps sid k })
    else (some v, m)

/-- `clear_session_cache` (lines 82-88): drop the whole session namespace. -/
def ConvManager.clear_session_cache (m : ConvManager) (sid : String) : ConvManager :=
  { m with session_cache := cache_clear m.session_cache sid,
           cache_timestamps := cache_clear m.cache_timestamps sid }

/-- The staleness test of `cleanup_old_sessions` (lines 136-144): sessions with
an empty history are skipped; otherwise the age is measured from the last
turn's timestamp and compared strictly against `max_age`. -/
def is_stale (now max_age : Nat) (conversation : List Turn) : Bool :=
  match conversation.getLast? with
  | none => false
  | some t => max_age < now - t.timestamp

/-- `cleanup_old_sessions` (lines 130-153): collect the stale session ids, then
delete their histories, their side-cache namespaces and their start-time
records; return how many sessions were removed together with the new state. -/
def ConvManager.cleanup_old_sessions (m : ConvManager) (max_age now : Nat) :
    Nat × ConvManager :=
  let sessions_to_remove :=
    (m.conversations.filter (fun e => is_stale now max_age e.2)).map (fun e => e.1)
  let m2 : ConvManager :=
    { conversations := m.conversations.filter (fun e => !(sessions_to_remove.contains e.1)),
      session_cache := m.session_cache.filter (fun e => !(sessions_to_remove.contains e.1)),
      cache_timestamps :=
        m.cache_timestamps.filter (fun e => !(sessions_to_remove.contains e.1)),
      session_start_times :=
        m.session_start_times.filter (fun e => !(sessions_to_remove.contains e.1)),
      cache_ttl := m.cache_ttl }
  (sessions_to_remove.length, m2)

/-! ## Request assembly (`librarian_claude_agent.py`) -/

/-- One text part of a content-block list, with its optional
`cache_control: ephemeral` marker reduced to a Bool. -/
structure TextPart where
  text : String
  cache_control : Bool
deriving DecidableEq

/-- Message content: either a bare string or a list of text parts
(the shape used for the skill / documentation context messages). -/
inductive MsgContent where
  | str : String → MsgContent
  | blocks : List TextPart → MsgContent
deriving DecidableEq

/-- One entry of the `messages` array sent to the model. -/
structure Msg where
  role : String
  content : MsgContent
deriving DecidableEq

/-- The freshness window: the code slices `conversation[:-2]` / `[-2:]`. -/
def freshness_window : Nat := 2

/-- The cache-boundary partition point implicit in
`_build_cached_messages`: the slice `conversation[:-2]` keeps indices
`[0, len-2)`, i.e. `p = len ∸ 2` (truncated subtraction). -/
def cache_boundary (conversation : List Turn) : Nat :=
  conversation.length - freshness_window

/-- Turns in the committable/cacheable prefix `[0, p)`. -/
def committable_turns (conversation : List Turn) : List Turn :=
  conversation.take (cache_boundary conversation)

/-- Turns in the fresh suffix `[p, end)`. -/
def fresh_suffix (conversation : List Turn) : List Turn :=
  conversation.drop (cache_boundary conversation)

/-- Flatten turns to alternating user/assistant messages, as both loops of
`_build_cached_messages` (lines 236-255) do. -/
def turn_messages (turns : List Turn) : List Msg :=
  turns.flatMap (fun t =>
    [⟨"user", .str t.user_message⟩, ⟨"assistant", .str t.agent_response⟩])

/-- The skill-context block pair (lines 257-276): emitted only when
`skill_context` is truthy, the cache marker on its final text part. -/
def skill_block (skill_context : String) : List Msg :=
  if skill_context == "" then []
  else
    [⟨"user", .blocks [⟨"📚 SKILL CONTEXT:\n\n" ++ skill_context, false⟩,
                       ⟨"Skills loaded and ready.", true⟩]⟩,
     ⟨"assistant", .str "I\x27ve reviewed the skills and I\x27m ready to apply them."⟩]

/-- The documentation-context block pair (lines 278-297). -/
def doc_block (doc_context : String) : List Msg :=
  if doc_context == "" then []
  else
    [⟨"user", .blocks [⟨"📖 DOCUMENTATION:\n\n" ++ doc_context, false⟩,
                       ⟨"Documentation loaded.", true⟩]⟩,
     ⟨"assistant", .str "I\x27ve reviewed the documentation."⟩]

/-- `_build_cached_messages` (lines 222-305), written as the sequence of
`messages.append` calls the Python executes: older turns (`conversation[:-2]`),
recent turns (`conversation[-2:]`), the skill block, the documentation block,
and finally the bare new user message.  The `if conversation:` guard is
dropped: both loops are empty for an empty history. -/
def _build_cached_messages (message : String) (conversation : List Turn)
    (skill_context doc_context : String) : List Msg :=
  (conversation.take (conversation.length - 2)).flatMap (fun t =>
      [⟨"user", .str t.user_message⟩, ⟨"assistant", .str t.agent_response⟩])
  ++ (conversation.drop (conversation.length - 2)).flatMap (fun t =>
      [⟨"user", .str t.user_message⟩, ⟨"assistant", .str t.agent_response⟩])
  ++ (if skill_context == "" then []
      else
        [⟨"user", .blocks [⟨"📚 SKILL CONTEXT:\n\n" ++ skill_context, false⟩,
                           ⟨"Skills loaded and ready.", true⟩]⟩,
         ⟨"assistant", .str "I\x27ve reviewed the skills and I\x27m ready to apply them."⟩])
  ++ (if doc_context == "" then []
      else
        [⟨"user", .blocks [⟨"📖 DOCUMENTATION:\n\n" ++ doc_context, false⟩,
                           ⟨"Documentation loaded.", true⟩]⟩,
         ⟨"assistant", .str "I\x27ve reviewed the documentation."⟩])
  ++ [⟨"user", .str message⟩]

/-- The message order the specification claims (§4.4): capability-context
block, then side-data block, then the committable turn-history prefix, then
the fresh suffix, then the new user message.  (The system-instructions block
travels in the separate `system` request field, before all messages.)
Written from the spec's words, to be compared with `_build_cached_messages`. -/
def spec_claimed_messages (message : String) (conversation : List Turn)
    (skill_context doc_context : String) : List Msg :=
  skill_block skill_context
  ++ doc_block doc_context
  ++ turn_messages (committable_turns conversation)
  ++ turn_messages (fresh_suffix conversation)
  ++ [⟨"user", .str message⟩]

/-- A tool definition, with its optional cache marker reduced to a Bool. -/
structure ToolDef where
  name : String
  cache_control : Bool
deriving DecidableEq

/-- `_get_cached_tools` (lines 307-316): set `cache_control` on the last tool
of the list, leaving the rest untouched. -/
def _get_cached_tools : List ToolDef → List ToolDef
  | [] => []
  | [t] => [{ t with cache_control := true }]
  | t :: t2 :: ts => t :: _get_cached_tools (t2 :: ts)

/-! ## Cost ledger (`_calculate_cost_with_cache`, lines 389-422) -/

def PROMPT_PRICE : ℚ := 3.00 / 1000000
def CACHE_WRITE_PRICE : ℚ := 3.75 / 1000000
def CACHE_READ_PRICE : ℚ := 0.30 / 1000000
def OUTPUT_PRICE : ℚ := 15.00 / 1000000

/-- The usage record.  `input_tokens` and `output_tokens` are accessed
directly on the response object (an absent field would raise in Python, so
they are required here); the two cache counts are read with
`getattr(usage, ..., 0)` and are therefore optional. -/
structure Usage where
  input_tokens : Int
  cache_creation_input_tokens : Option Int
  cache_read_input_tokens : Option Int
  output_tokens : Int
deriving DecidableEq

/-- The `costs` dict of `_calculate_cost_with_cache`. -/
structure CostBreakdown where
  prompt : ℚ
  cache_write : ℚ
  cache_read : ℚ
  output : ℚ
deriving DecidableEq

/-- The dict returned by `_calculate_cost_with_cache`. -/
structure CostInfo where
  total : ℚ
  breakdown : CostBreakdown
  savings : ℚ
  savings_percentage : ℚ
deriving DecidableEq

/-- `_calculate_cost_with_cache` (lines 389-422), with Python floats embedded
as exact rationals.  `savings` is computed only when `cache_read > 0`. -/
def _calculate_cost_with_cache (usage : Usage) : CostInfo :=
  let cache_creation := usage.cache_creation_input_tokens.getD 0
  let cache_read := usage.cache_read_input_tokens.getD 0
  let prompt : ℚ := (usage.input_tokens : ℚ) * PROMPT_PRICE
  let cache_write : ℚ := (cache_creation : ℚ) * CACHE_WRITE_PRICE
  let cache_read_cost : ℚ := (cache_read : ℚ) * CACHE_READ_PRICE
  let output : ℚ := (usage.output_tokens : ℚ) * OUTPUT_PRICE
  let total := prompt + cache_write + cache_read_cost + output
  let savings : ℚ :=
    if 0 < cache_read then
      (cache_read : ℚ) * PROMPT_PRICE - (cache_read : ℚ) * CACHE_READ_PRICE
    else 0
  { total := total,
    breakdown := ⟨prompt, cache_write, cache_read_cost, output⟩,
    savings := savings,
    savings_percentage := if 0 < savings then savings / (total + savings) * 100 else 0 }

/-! ## Documentation context and the chat state transition -/

/-- The result of `tools.search_documentation`: parallel `results` /
`sources` lists, sources abstracted to their `module` names. -/
structure SearchResults where
  results : List String
  sources : List String
deriving DecidableEq

/-- The loop body of `_format_docs_for_cache` (lines 213-218):
`[DOC i+1] module` header over each result, with `sources[i]` defaulting to
`Unknown` when the sources list is shorter. -/
def format_docs_go : Nat → List String → List String → List String
  | _, [], _ => []
  | i, r :: rs, srcs =>
    ("[DOC " ++ toString (i + 1) ++ "] " ++ srcs.getD i "Unknown" ++ "\n" ++ r ++ "\n")
      :: format_docs_go (i + 1) rs srcs

/-- `_format_docs_for_cache` (lines 207-220): empty string for an absent or
empty result set, otherwise the newline-joined formatted entries. -/
def _format_docs_for_cache (results : Option SearchResults) : String :=
  match results with
  | none => ""
  | some r =>
    if r.results.isEmpty then ""
    else String.intercalate "\n" (format_docs_go 0 r.results r.sources)

/-- Python truthiness of the value returned by `get_session_cache`:
`None` and the empty string are falsy. -/
def truthy_str : Option String → Bool
  | none => false
  | some s => !(s == "")

/-- `_get_documentation_context` (lines 184-205): return the session-cached
documentation when truthy; otherwise run the external search (its result is
the `search_results` parameter), format it, write it back into the session
cache under key `docs`, and return it. -/
def _get_documentation_context (m : ConvManager) (_query sid : String)
    (search_results : Option SearchResults) (now : Nat) : String × ConvManager :=
  let res := m.get_session_cache sid "docs" now
  if truthy_str res.1 then ((res.1).getD "", res.2)
  else
    let context := _format_docs_for_cache search_results
    (context, (res.2).set_session_cache sid "docs" context now)

/-- The state-transition skeleton of `chat` (lines 89-168): read the session
history, fetch the documentation context (side-cache read/write), assemble the
messages, and — after the external model call, abstracted by the
`response_text` / `tool_calls` / `skills_used` parameters — unconditionally
append the new turn.  There is no session-existence check and no error path
tied to the session id. -/
def chat (m : ConvManager) (message sid : String) (skill_context : String)
    (search_results : Option SearchResults) (response_text : String)
    (tool_calls skills_used : List String) (now : Nat) : List Msg × ConvManager :=
  let conversation := m.get_conversation sid
  let dc := _get_documentation_context m message sid search_results now
  let messages := _build_cached_messages message conversation skill_context dc.1
  let m2 := (dc.2).add_turn sid message response_text tool_calls skills_used now
  (messages, m2)

/-- A cache breakpoint may sit only at the end of a block: in a content-block
message every part except the last carries no `cache_control` marker. -/
def breakpoint_at_end (msg : Msg) : Prop :=
  ∀ parts, msg.content = MsgContent.blocks parts →
    ∀ p ∈ parts.dropLast, p.cache_control = false

/-! ## Concrete instances used by counterexamples and witnesses -/

def tA : Turn := ⟨0, "u1", "a1", [], []⟩
def tB : Turn := ⟨1, "u2", "a2", [], []⟩
def tC : Turn := ⟨2, "u3", "a3", [], []⟩

/-- A manager holding a single one-turn session `s`. -/
def m_one : ConvManager :=
  { conversations := [("s", [tA])], session_cache := [], cache_timestamps := [],
    session_start_times := [("s", 0)], cache_ttl := 300 }

/-- A manager whose session `s` holds an unexpired side-cache entry with the
empty string (a falsy value) under the documentation key. -/
def m_falsy : ConvManager := (mk_manager 300).set_session_cache "s" "docs" "" 0

/-- A concrete external retrieval result. -/
def r_ex : Option SearchResults := some ⟨["R1"], ["mod"]⟩

/-- A manager with a session idle 3601 s and a session idle 3599 s at
`now = 3601`. -/
def m_reap : ConvManager :=
  { conversations := [("old", [tA]), ("fresh", [tB, ⟨2, "u", "a", [], []⟩])],
    session_cache := [("old", "docs", "X"), ("fresh", "docs", "Y")],
    cache_timestamps := [("old", "docs", 0), ("fresh", "docs", 2)],
    session_start_times := [("old", 0), ("fresh", 1)],
    cache_ttl := 300 }

/-! ## Helper lemmas -/

theorem cache_find_set_same {α : Type} (l : List (String × String × α)) (sid k : String)
    (v : α) : cache_find (cache_set l sid k v) sid k = some v := by
  simp [cache_find, cache_set]

theorem cache_find_del_same {α : Type} (l : List (String × String × α)) (sid k : String) :
    cache_find (cache_del l sid k) sid k = none := by
  unfold cache_find cache_del
  rw [Option.map_eq_none', List.find?_eq_none]
  intro x hx
  have hm := (List.mem_filter.mp hx).2
  simp only [Bool.not_eq_true'] at hm
  simp [hm]

theorem conv_find_set_same (l : List (String × List Turn)) (sid : String)
    (v : List Turn) : conv_find (conv_set l sid v) sid = some v := by
  simp [conv_find, conv_set]

/-- `add_turn` appends exactly one turn at the end of the session's history. -/
theorem get_conversation_add_turn (m : ConvManager) (sid u a : String)
    (tc sk : List String) (now : Nat) :
    (m.add_turn sid u a tc sk now).get_conversation sid
      = m.get_conversation sid ++ [⟨now, u, a, tc, sk⟩] := by
  unfold ConvManager.add_turn ConvManager.get_conversation
  split <;> simp [conv_find_set_same]

/-- When `get_session_cache` returns a value, the state is untouched. -/
theorem get_session_cache_some_state (m : ConvManager) (sid k : String) (now : Nat)
    (v : String) (h : (m.get_session_cache sid k now).1 = some v) :
    (m.get_session_cache sid k now).2 = m := by
  unfold ConvManager.get_session_cache at h ⊢
  cases hf : cache_find m.session_cache sid k with
  | none => simp [hf] at h
  | some w =>
    simp only [hf] at h ⊢
    by_cases hc : m.cache_ttl < now - (cache_find m.cache_timestamps sid k).getD 0
    · simp [hc] at h
    · simp [hc]

/-- `get_session_cache` never touches the conversation histories. -/
theorem get_session_cache_conversations (m : ConvManager) (sid k : String) (now : Nat) :
    ((m.get_session_cache sid k now).2).conversations = m.conversations := by
  unfold ConvManager.get_session_cache
  cases hf : cache_find m.session_cache sid k with
  | none => rfl
  | some v =>
    by_cases hc : m.cache_ttl < now - (cache_find m.cache_timestamps sid k).getD 0
    · simp [hc]
    · simp [hc]

/-- `_get_documentation_context` never touches the conversation histories. -/
theorem doc_context_conversations (m : ConvManager) (q sid : String)
    (r : Option SearchResults) (now : Nat) :
    ((_get_documentation_context m q sid r now).2).conversations = m.conversations := by
  by_cases hc : truthy_str (m.get_session_cache sid "docs" now).1 = true
  · simp [_get_documentation_context, hc, get_session_cache_conversations]
  · simp [_get_documentation_context, hc, ConvManager.set_session_cache,
      get_session_cache_conversations]

/-! ## Claims -/

/-- C1: the cache boundary computed at request assembly is
`p = max(0, len(history) − 2)`; fewer than 2 turns give an empty cacheable
prefix, and exactly 3 turns give `p = 1`. -/
theorem C1_cache_boundary (conv : List Turn) :
    ((cache_boundary conv : ℤ) = max 0 ((conv.length : ℤ) - 2))
    ∧ (conv.length < 2 → committable_turns conv = [])
    ∧ (conv.length = 3 → cache_boundary conv = 1) := by
  refine ⟨?_, ?_, ?_⟩
  · unfold cache_boundary freshness_window
    omega
  · intro h
    unfold committable_turns cache_boundary freshness_window
    have h0 : conv.length - 2 = 0 := by omega
    rw [h0, List.take_zero]
  · intro h
    unfold cache_boundary freshness_window
    omega

theorem C1_cache_boundary_witness : cache_boundary [tA, tB, tC] = 1 :=
  (C1_cache_boundary [tA, tB, tC]).2.2 rfl

/-- C2: appending turns (the only way a session history evolves, via
`add_turn`) never decreases the cache boundary, and the cacheable prefix of
an earlier assembly is a prefix of the cacheable prefix of any later one. -/
theorem C2_monotonic_boundary (m : ConvManager) (sid u a : String) (tc sk : List String)
    (now : Nat) (conv ext : List Turn) :
    ((m.add_turn sid u a tc sk now).get_conversation sid
        = m.get_conversation sid ++ [⟨now, u, a, tc, sk⟩])
    ∧ cache_boundary conv ≤ cache_boundary (conv ++ ext)
    ∧ committable_turns conv <+: committable_turns (conv ++ ext) := by
  have h2 : cache_boundary conv ≤ cache_boundary (conv ++ ext) := by
    unfold cache_boundary freshness_window
    rw [List.length_append]
    omega
  refine ⟨get_conversation_add_turn m sid u a tc sk now, h2, ?_⟩
  have hle : cache_boundary conv ≤ conv.length := Nat.sub_le _ _
  have heq : committable_turns conv
      = (committable_turns (conv ++ ext)).take (cache_boundary conv) := by
    unfold committable_turns
    rw [List.take_take, Nat.min_eq_left h2, List.take_append_eq_append_take,
      Nat.sub_eq_zero_of_le hle, List.take_zero, List.append_nil]
  rw [heq]
  exact List.take_prefix _ _

/-- C5: the cost ledger's savings equal
`cache_read × (fresh_rate − cache_read_rate)`, are non-negative, vanish
exactly when `cache_read = 0`, and the spec's concrete example yields
`0.0135 = 27/2000`. -/
theorem C5_savings (u : Usage)
    (hin : 0 ≤ u.input_tokens) (hout : 0 ≤ u.output_tokens)
    (hcw : 0 ≤ u.cache_creation_input_tokens.getD 0)
    (hcr : 0 ≤ u.cache_read_input_tokens.getD 0) :
    ((_calculate_cost_with_cache u).savings
        = ((u.cache_read_input_tokens.getD 0 : ℚ)) * (PROMPT_PRICE - CACHE_READ_PRICE))
    ∧ 0 ≤ (_calculate_cost_with_cache u).savings
    ∧ ((_calculate_cost_with_cache u).savings = 0 ↔ u.cache_read_input_tokens.getD 0 = 0)
    ∧ (_calculate_cost_with_cache ⟨1000, some 0, some 5000, 200⟩).savings = 27 / 2000 := by
  have hform : (_calculate_cost_with_cache u).savings
      = ((u.cache_read_input_tokens.getD 0 : ℚ)) * (PROMPT_PRICE - CACHE_READ_PRICE) := by
    simp only [_calculate_cost_with_cache]
    by_cases h : 0 < u.cache_read_input_tokens.getD 0
    · rw [if_pos h]; ring
    · rw [if_neg h]
      have h0 : u.cache_read_input_tokens.getD 0 = 0 := by omega
      rw [h0]
      push_cast
      ring
  have hdiff : (0 : ℚ) < PROMPT_PRICE - CACHE_READ_PRICE := by
    norm_num [PROMPT_PRICE, CACHE_READ_PRICE]
  refine ⟨hform, ?_, ?_, ?_⟩
  · rw [hform]
    have : (0 : ℚ) ≤ ((u.cache_read_input_tokens.getD 0 : ℚ)) := by exact_mod_cast hcr
    exact mul_nonneg this (le_of_lt hdiff)
  · rw [hform]
    rw [mul_eq_zero]
    constructor
    · intro h
      rcases h with h | h
      · exact_mod_cast h
      · exact absurd h (ne_of_gt hdiff)
    · intro h
      left
      exact_mod_cast h
  · norm_num [_calculate_cost_with_cache, PROMPT_PRICE, CACHE_READ_PRICE]

theorem C5_savings_witness :
    (_calculate_cost_with_cache ⟨1000, some 0, some 5000, 200⟩).savings = 27 / 2000 :=
  (C5_savings ⟨1000, some 0, some 5000, 200⟩ (by norm_num) (by norm_num) (by norm_num)
    (by norm_num)).2.2.2

/-- C7 counterexample: the claim says `read_last_n(s, 0)` returns the empty
sequence, but on a one-turn session the code returns the whole history,
because the Python slice `conversation[-0:]` is `conversation[0:]`. -/
theorem C7_counterexample :
    m_one.get_last_n_turns "s" 0 = [tA] ∧ m_one.get_last_n_turns "s" 0 ≠ [] := by
  constructor <;> decide

/-- C7 amended: for `n ≥ 1`, `get_last_n_turns` returns exactly the last
`min n len` turns in insertion order; for `n = 0` it returns the whole
history rather than the empty sequence. -/
theorem C7_last_n_amended (m : ConvManager) (sid : String) (n : Nat) :
    (1 ≤ n →
      (m.get_last_n_turns sid n
          = (m.get_conversation sid).drop ((m.get_conversation sid).length - n))
      ∧ (m.get_last_n_turns sid n).length = min n (m.get_conversation sid).length)
    ∧ m.get_last_n_turns sid 0 = m.get_conversation sid := by
  constructor
  · intro hn
    unfold ConvManager.get_last_n_turns py_slice_last
    by_cases h : n < (m.get_conversation sid).length
    · rw [if_pos h, if_neg (by omega)]
      refine ⟨rfl, ?_⟩
      rw [List.length_drop]
      omega
    · rw [if_neg h]
      constructor
      · rw [Nat.sub_eq_zero_of_le (by omega), List.drop_zero]
      · omega
  · simp [ConvManager.get_last_n_turns, py_slice_last]

theorem C7_last_n_witness :
    m_one.get_last_n_turns "s" 1
      = (m_one.get_conversation "s").drop ((m_one.get_conversation "s").length - 1) :=
  ((C7_last_n_amended m_one "s" 1).1 (le_refl 1)).1

/-- C9 counterexample: a usage record with a negative `input_tokens` is not
treated as zero — the prompt cost component comes out negative. -/
theorem C9_counterexample :
    (_calculate_cost_with_cache ⟨-1000, some 0, some 0, 200⟩).breakdown.prompt < 0 := by
  norm_num [_calculate_cost_with_cache, PROMPT_PRICE]

/-- C9 amended: only the two `getattr`-read cache counts default to zero when
missing; `input_tokens`/`output_tokens` are required, negative counts are NOT
clamped (a negative `input_tokens` yields a negative prompt component), and
the savings stay zero whenever `cache_read ≤ 0`. -/
theorem C9_cost_amended (u : Usage) :
    (_calculate_cost_with_cache { u with cache_creation_input_tokens := none,
                                         cache_read_input_tokens := none }
        = _calculate_cost_with_cache { u with cache_creation_input_tokens := some 0,
                                              cache_read_input_tokens := some 0 })
    ∧ (u.input_tokens < 0 → (_calculate_cost_with_cache u).breakdown.prompt < 0)
    ∧ (u.cache_read_input_tokens.getD 0 ≤ 0 → (_calculate_cost_with_cache u).savings = 0) := by
  refine ⟨rfl, ?_, ?_⟩
  · intro h
    have hq : ((u.input_tokens : ℚ)) < 0 := by exact_mod_cast h
    simp only [_calculate_cost_with_cache]
    exact mul_neg_of_neg_of_pos hq (by norm_num [PROMPT_PRICE])
  · intro h
    simp only [_calculate_cost_with_cache]
    rw [if_neg (by omega)]

theorem C9_cost_witness :
    (_calculate_cost_with_cache ⟨-1000, none, none, 200⟩).breakdown.prompt < 0 :=
  (C9_cost_amended ⟨-1000, none, none, 200⟩).2.1 (by norm_num)

/-- C4 counterexample: an entry written at T = 0 with TTL Δ = 300 is still
returned at exactly t = T + Δ = 300 — the claim says a read at `t ≥ T + Δ`
returns absent, but the code expires only strictly after `T + Δ`
(`cache_age > self.cache_ttl`). -/
theorem C4_counterexample :
    (((mk_manager 300).set_session_cache "s1" "docs" "X" 0).get_session_cache
        "s1" "docs" 300).1 = some "X" := by decide

/-- C4 amended: a get at any time `≤ T + Δ` returns the stored value; a get
strictly after `T + Δ` returns absent and removes the entry, so every
subsequent get for that key also returns absent. -/
theorem C4_ttl_amended (m : ConvManager) (sid k v : String) (T now now2 : Nat) :
    ((now ≤ T + m.cache_ttl) →
        ((m.set_session_cache sid k v T).get_session_cache sid k now).1 = some v)
    ∧ ((T + m.cache_ttl < now) →
        ((((m.set_session_cache sid k v T).get_session_cache sid k now).1 = none)
         ∧ ((((m.set_session_cache sid k v T).get_session_cache sid k now).2).get_session_cache
              sid k now2).1 = none)) := by
  have hv : cache_find (m.set_session_cache sid k v T).session_cache sid k = some v :=
    cache_find_set_same _ _ _ _
  have ht : cache_find (m.set_session_cache sid k v T).cache_timestamps sid k = some T :=
    cache_find_set_same _ _ _ _
  have httl : (m.set_session_cache sid k v T).cache_ttl = m.cache_ttl := rfl
  constructor
  · intro h
    simp only [ConvManager.get_session_cache, hv, ht, Option.getD_some, httl]
    rw [if_neg (by omega)]
  · intro h
    have hstate : ((m.set_session_cache sid k v T).get_session_cache sid k now).2
        = { m.set_session_cache sid k v T with
            session_cache := cache_del (m.set_session_cache sid k v T).session_cache sid k,
            cache_timestamps :=
              cache_del (m.set_session_cache sid k v T).cache_timestamps sid k } := by
      simp only [ConvManager.get_session_cache, hv, ht, Option.getD_some, httl]
      rw [if_pos (by omega)]
    constructor
    · simp only [ConvManager.get_session_cache, hv, ht, Option.getD_some, httl]
      rw [if_pos (by omega)]
    · rw [hstate]
      simp only [ConvManager.get_session_cache, cache_find_del_same]

theorem C4_ttl_witness :
    ((((mk_manager 300).set_session_cache "s1" "docs" "X" 0).get_session_cache
        "s1" "docs" 299).1 = some "X")
    ∧ ((((mk_manager 300).set_session_cache "s1" "docs" "X" 0).get_session_cache
        "s1" "docs" 301).1 = none)
    ∧ (((((mk_manager 300).set_session_cache "s1" "docs" "X" 0).get_session_cache
        "s1" "docs" 301).2).get_session_cache "s1" "docs" 302).1 = none :=
  ⟨(C4_ttl_amended (mk_manager 300) "s1" "docs" "X" 0 299 302).1 (by decide),
   ((C4_ttl_amended (mk_manager 300) "s1" "docs" "X" 0 301 302).2 (by decide)).1,
   ((C4_ttl_amended (mk_manager 300) "s1" "docs" "X" 0 301 302).2 (by decide)).2⟩

/-- C8 counterexample: invoking `chat` with a session id that was never
created does not produce an error — it silently creates session state: on a
fresh manager the unknown session ends up holding one appended turn. -/
theorem C8_counterexample :
    ((chat (mk_manager 300) "hi" "nope" "" none "resp" [] [] 10).2).get_conversation "nope"
      = [⟨10, "hi", "resp", [], []⟩] := by decide

/-- C8 amended: read operations on an unknown session id return empty history
(not an error), and `chat` on an unknown session id is not an error either —
it silently creates the session via `add_turn`, which afterwards holds
exactly the one new turn. -/
theorem C8_unknown_session (m : ConvManager) (message sid sc resp : String)
    (r : Option SearchResults) (tc sk : List String) (now : Nat)
    (h : conv_find m.conversations sid = none) :
    (m.get_conversation sid = [])
    ∧ (((chat m message sid sc r resp tc sk now).2).get_conversation sid
        = [⟨now, message, resp, tc, sk⟩]) := by
  have hempty : m.get_conversation sid = [] := by
    unfold ConvManager.get_conversation
    rw [h]
    rfl
  refine ⟨hempty, ?_⟩
  show (((_get_documentation_context m message sid r now).2).add_turn
      sid message resp tc sk now).get_conversation sid = [⟨now, message, resp, tc, sk⟩]
  rw [get_conversation_add_turn]
  have hdoc : ((_get_documentation_context m message sid r now).2).get_conversation sid
      = [] := by
    unfold ConvManager.get_conversation
    rw [doc_context_conversations, h]
    rfl
  rw [hdoc]
  rfl

theorem C8_unknown_session_witness :
    ((mk_manager 300).get_conversation "nope" = [])
    ∧ (((chat (mk_manager 300) "hi" "nope" "" none "resp" [] [] 10).2).get_conversation "nope"
        = [⟨10, "hi", "resp", [], []⟩]) :=
  C8_unknown_session (mk_manager 300) "hi" "nope" "" "resp" none [] [] 10 rfl

/-- C10: a present, unexpired side-cache entry holding the empty string is
treated by `_get_documentation_context` as a cache miss: the external
retrieval result is used and written back over the entry, so a stored falsy
value behaves like absence at the public interface. -/
theorem C10_falsy_cache_miss (m : ConvManager) (q sid : String) (r : Option SearchResults)
    (now : Nat) (h : (m.get_session_cache sid "docs" now).1 = some "") :
    ((_get_documentation_context m q sid r now).1 = _format_docs_for_cache r)
    ∧ (cache_find ((_get_documentation_context m q sid r now).2).session_cache sid "docs"
        = some (_format_docs_for_cache r))
    ∧ (cache_find ((_get_documentation_context m q sid r now).2).cache_timestamps sid "docs"
        = some now) := by
  have hst : (m.get_session_cache sid "docs" now).2 = m :=
    get_session_cache_some_state m sid "docs" now "" h
  simp only [_get_documentation_context, h, hst, truthy_str]
  norm_num
  exact ⟨cache_find_set_same _ _ _ _, cache_find_set_same _ _ _ _⟩

theorem C10_falsy_cache_witness :
    ((_get_documentation_context m_falsy "q" "s" r_ex 10).1 = _format_docs_for_cache r_ex)
    ∧ cache_find ((_get_documentation_context m_falsy "q" "s" r_ex 10).2).session_cache
        "s" "docs" = some (_format_docs_for_cache r_ex) :=
  ⟨(C10_falsy_cache_miss m_falsy "q" "s" r_ex 10 (by decide)).1,
   (C10_falsy_cache_miss m_falsy "q" "s" r_ex 10 (by decide)).2.1⟩

/-! ## C3: request block structure -/

theorem turn_messages_cons (t : Turn) (ts : List Turn) :
    turn_messages (t :: ts)
      = ⟨"user", .str t.user_message⟩ :: ⟨"assistant", .str t.agent_response⟩
          :: turn_messages ts := rfl

theorem breakpoint_of_str (msg : Msg) (s : String) (h : msg.content = MsgContent.str s) :
    breakpoint_at_end msg := by
  intro parts hp
  rw [h] at hp
  cases hp

theorem turn_messages_str (turns : List Turn) :
    ∀ msg ∈ turn_messages turns, ∃ s, msg.content = MsgContent.str s := by
  induction turns with
  | nil => intro msg h; cases h
  | cons t ts ih =>
    intro msg h
    rw [turn_messages_cons] at h
    rcases List.mem_cons.mp h with h1 | h
    · exact ⟨t.user_message, by rw [h1]⟩
    rcases List.mem_cons.mp h with h1 | h
    · exact ⟨t.agent_response, by rw [h1]⟩
    exact ih msg h

theorem breakpoint_at_end_two (role t1 t2 : String) :
    breakpoint_at_end ⟨role, MsgContent.blocks [⟨t1, false⟩, ⟨t2, true⟩]⟩ := by
  intro parts hp
  cases hp
  simp

theorem get_cached_tools_eq (tools : List ToolDef) :
    _get_cached_tools tools
      = tools.dropLast
        ++ (tools.getLast?.map (fun t => { t with cache_control := true })).toList := by
  induction tools with
  | nil => rfl
  | cons t ts ih =>
    cases ts with
    | nil => rfl
    | cons t2 ts2 =>
      show t :: _get_cached_tools (t2 :: ts2) = _
      rw [ih, List.dropLast_cons₂, List.getLast?_cons_cons]
      rfl

/-- C3 counterexample: at a concrete input the assembled message array does
not follow the claimed order (capability-context and side-data blocks before
the turn history) — the code emits the turn history first. -/
theorem C3_counterexample :
    _build_cached_messages "m" [tA, tB, tC] "S" "D"
      ≠ spec_claimed_messages "m" [tA, tB, tC] "S" "D" := by decide

/-- C3 amended: the assembled array is ordered committable turn-history
prefix, fresh suffix, skill block, documentation block, new user message;
skill and documentation blocks are whole-or-omitted; a cache breakpoint is
placed only at the end of a block; the final message is the uncached new
user message; and the tool list carries its marker only on the last tool. -/
theorem C3_block_structure (message : String) (conversation : List Turn)
    (sc dc : String) (tools : List ToolDef) :
    (_build_cached_messages message conversation sc dc
      = turn_messages (committable_turns conversation)
        ++ turn_messages (fresh_suffix conversation)
        ++ skill_block sc ++ doc_block dc ++ [⟨"user", MsgContent.str message⟩])
    ∧ (∀ msg ∈ _build_cached_messages message conversation sc dc, breakpoint_at_end msg)
    ∧ (sc = "" → skill_block sc = [])
    ∧ (sc ≠ "" → skill_block sc
        = [⟨"user", MsgContent.blocks [⟨"📚 SKILL CONTEXT:\n\n" ++ sc, false⟩,
                                       ⟨"Skills loaded and ready.", true⟩]⟩,
           ⟨"assistant",
            MsgContent.str "I\x27ve reviewed the skills and I\x27m ready to apply them."⟩])
    ∧ (dc = "" → doc_block dc = [])
    ∧ (dc ≠ "" → doc_block dc
        = [⟨"user", MsgContent.blocks [⟨"📖 DOCUMENTATION:\n\n" ++ dc, false⟩,
                                       ⟨"Documentation loaded.", true⟩]⟩,
           ⟨"assistant", MsgContent.str "I\x27ve reviewed the documentation."⟩])
    ∧ ((_build_cached_messages message conversation sc dc).getLast?
        = some ⟨"user", MsgContent.str message⟩)
    ∧ (_get_cached_tools tools
        = tools.dropLast
          ++ (tools.getLast?.map (fun t => { t with cache_control := true })).toList) := by
  have hdecomp : _build_cached_messages message conversation sc dc
      = turn_messages (committable_turns conversation)
        ++ turn_messages (fresh_suffix conversation)
        ++ skill_block sc ++ doc_block dc ++ [⟨"user", MsgContent.str message⟩] := rfl
  refine ⟨hdecomp, ?_, ?_, ?_, ?_, ?_, ?_, get_cached_tools_eq tools⟩
  · intro msg hm
    rw [hdecomp] at hm
    rcases List.mem_append.mp hm with hm | hlast
    · rcases List.mem_append.mp hm with hm | hdocm
      · rcases List.mem_append.mp hm with hm | hskill
        · rcases List.mem_append.mp hm with hm | hm
          · rcases turn_messages_str _ msg hm with ⟨s, hs⟩
            exact breakpoint_of_str msg s hs
          · rcases turn_messages_str _ msg hm with ⟨s, hs⟩
            exact breakpoint_of_str msg s hs
        · by_cases hsc : (sc == "") = true
          · unfold skill_block at hskill
            rw [if_pos hsc] at hskill
            cases hskill
          · unfold skill_block at hskill
            rw [if_neg hsc] at hskill
            rcases List.mem_cons.mp hskill with h1 | hskill
            · rw [h1]; exact breakpoint_at_end_two _ _ _
            rcases List.mem_cons.mp hskill with h1 | hskill
            · rw [h1]; exact breakpoint_of_str _ _ rfl
            cases hskill
      · by_cases hdc : (dc == "") = true
        · unfold doc_block at hdocm
          rw [if_pos hdc] at hdocm
          cases hdocm
        · unfold doc_block at hdocm
          rw [if_neg hdc] at hdocm
          rcases List.mem_cons.mp hdocm with h1 | hdocm
          · rw [h1]; exact breakpoint_at_end_two _ _ _
          rcases List.mem_cons.mp hdocm with h1 | hdocm
          · rw [h1]; exact breakpoint_of_str _ _ rfl
          cases hdocm
    · rcases List.mem_cons.mp hlast with h1 | hlast
      · rw [h1]; exact breakpoint_of_str _ _ rfl
      cases hlast
  · intro h
    subst h
    rfl
  · intro h
    unfold skill_block
    rw [if_neg (by simpa using h)]
  · intro h
    subst h
    rfl
  · intro h
    unfold doc_block
    rw [if_neg (by simpa using h)]
  · rw [hdecomp]
    exact List.getLast?_concat _

theorem C3_block_structure_witness :
    ("S" ≠ "" ∧ skill_block "S"
      = [⟨"user", MsgContent.blocks [⟨"📚 SKILL CONTEXT:\n\n" ++ "S", false⟩,
                                     ⟨"Skills loaded and ready.", true⟩]⟩,
         ⟨"assistant",
          MsgContent.str "I\x27ve reviewed the skills and I\x27m ready to apply them."⟩])
    ∧ (_build_cached_messages "m" [tA, tB, tC] "S" "D").getLast?
        = some ⟨"user", MsgContent.str "m"⟩ :=
  ⟨⟨by decide, (C3_block_structure "m" [tA, tB, tC] "S" "D" []).2.2.2.1 (by decide)⟩,
   (C3_block_structure "m" [tA, tB, tC] "S" "D" []).2.2.2.2.2.2.1⟩

/-! ## C6: session reaping -/

theorem contains_iff_mem_str (l : List String) (a : String) :
    l.contains a = true ↔ a ∈ l := by
  simp [List.contains_eq_any_beq]

/-- C6: after `cleanup_old_sessions(max_age)` no remaining session is idle
strictly longer than `max_age`; every stale session's turn history,
side-cache entries and session record are removed; and the count of removed
sessions is returned.  Retention of non-stale sessions needs unique session
ids, which the dict-backed source state always has. -/
theorem C6_reap (m : ConvManager) (max_age now : Nat) :
    (∀ e ∈ ((m.cleanup_old_sessions max_age now).2).conversations,
       ∀ t, e.2.getLast? = some t → now - t.timestamp ≤ max_age)
    ∧ (∀ e ∈ m.conversations, is_stale now max_age e.2 = true →
        (∀ e2 ∈ ((m.cleanup_old_sessions max_age now).2).conversations, e2.1 ≠ e.1)
        ∧ (∀ e2 ∈ ((m.cleanup_old_sessions max_age now).2).session_cache, e2.1 ≠ e.1)
        ∧ (∀ e2 ∈ ((m.cleanup_old_sessions max_age now).2).cache_timestamps, e2.1 ≠ e.1)
        ∧ (∀ e2 ∈ ((m.cleanup_old_sessions max_age now).2).session_start_times, e2.1 ≠ e.1))
    ∧ ((m.cleanup_old_sessions max_age now).1
        = (m.conversations.filter (fun e => is_stale now max_age e.2)).length)
    ∧ ((m.conversations.map Prod.fst).Nodup →
        ∀ e ∈ m.conversations, is_stale now max_age e.2 = false →
          e ∈ ((m.cleanup_old_sessions max_age now).2).conversations) := by
  have hconv : ((m.cleanup_old_sessions max_age now).2).conversations
      = m.conversations.filter (fun e =>
          !(((m.conversations.filter (fun e2 => is_stale now max_age e2.2)).map
              (fun e2 => e2.1)).contains e.1)) := rfl
  have hsc : ((m.cleanup_old_sessions max_age now).2).session_cache
      = m.session_cache.filter (fun e =>
          !(((m.conversations.filter (fun e2 => is_stale now max_age e2.2)).map
              (fun e2 => e2.1)).contains e.1)) := rfl
  have hts : ((m.cleanup_old_sessions max_age now).2).cache_timestamps
      = m.cache_timestamps.filter (fun e =>
          !(((m.conversations.filter (fun e2 => is_stale now max_age e2.2)).map
              (fun e2 => e2.1)).contains e.1)) := rfl
  have hstt : ((m.cleanup_old_sessions max_age now).2).session_start_times
      = m.session_start_times.filter (fun e =>
          !(((m.conversations.filter (fun e2 => is_stale now max_age e2.2)).map
              (fun e2 => e2.1)).contains e.1)) := rfl
  have hcount : (m.cleanup_old_sessions max_age now).1
      = ((m.conversations.filter (fun e2 => is_stale now max_age e2.2)).map
          (fun e2 => e2.1)).length := rfl
  have hmemrem : ∀ sid : String,
      sid ∈ (m.conversations.filter (fun e2 => is_stale now max_age e2.2)).map
          (fun e2 => e2.1)
        ↔ ∃ e, e ∈ m.conversations ∧ is_stale now max_age e.2 = true ∧ e.1 = sid := by
    intro sid
    constructor
    · intro hmem
      rcases List.mem_map.mp hmem with ⟨a, hain, hfst⟩
      rcases List.mem_filter.mp hain with ⟨ha, hs⟩
      exact ⟨a, ha, hs, hfst⟩
    · rintro ⟨a, ha, hs, hfst⟩
      exact List.mem_map.mpr ⟨a, List.mem_filter.mpr ⟨ha, hs⟩, hfst⟩
  refine ⟨?_, ?_, ?_, ?_⟩
  · intro e he t ht
    rw [hconv] at he
    rcases List.mem_filter.mp he with ⟨hem, hnc⟩
    rw [Bool.not_eq_true'] at hnc
    by_contra hgt
    push_neg at hgt
    have hstale : is_stale now max_age e.2 = true := by
      unfold is_stale
      rw [ht]
      exact decide_eq_true hgt
    have hin : e.1 ∈ (m.conversations.filter (fun e2 => is_stale now max_age e2.2)).map
        (fun e2 => e2.1) := (hmemrem e.1).mpr ⟨e, hem, hstale, rfl⟩
    rw [← contains_iff_mem_str] at hin
    rw [hnc] at hin
    exact Bool.noConfusion hin
  · intro e hem hstale
    have hin : e.1 ∈ (m.conversations.filter (fun e2 => is_stale now max_age e2.2)).map
        (fun e2 => e2.1) := (hmemrem e.1).mpr ⟨e, hem, hstale, rfl⟩
    have hfalse : ∀ {β : Type} (l : List (String × β)) (e2 : String × β),
        e2 ∈ l.filter (fun x =>
          !(((m.conversations.filter (fun e3 => is_stale now max_age e3.2)).map
              (fun e3 => e3.1)).contains x.1)) → e2.1 ≠ e.1 := by
      intro β l e2 h2 heq
      rcases List.mem_filter.mp h2 with ⟨_, hnc⟩
      rw [Bool.not_eq_true'] at hnc
      rw [heq] at hnc
      rw [← contains_iff_mem_str] at hin
      rw [hnc] at hin
      exact Bool.noConfusion hin
    exact ⟨fun e2 h2 => hfalse _ e2 (hconv ▸ h2),
           fun e2 h2 => hfalse _ e2 (hsc ▸ h2),
           fun e2 h2 => hfalse _ e2 (hts ▸ h2),
           fun e2 h2 => hfalse _ e2 (hstt ▸ h2)⟩
  · rw [hcount, List.length_map]
  · intro hnd e hem hnstale
    rw [hconv]
    refine List.mem_filter.mpr ⟨hem, ?_⟩
    rw [Bool.not_eq_true']
    by_contra hc
    rw [Bool.not_eq_false] at hc
    rw [contains_iff_mem_str] at hc
    rcases (hmemrem e.1).mp hc with ⟨e3, he3m, he3s, he3f⟩
    have heq : e3 = e := List.inj_on_of_nodup_map hnd he3m hem he3f
    rw [heq] at he3s
    rw [hnstale] at he3s
    exact Bool.noConfusion he3s

theorem C6_reap_witness :
    (∀ e2 ∈ ((m_reap.cleanup_old_sessions 3600 3601).2).conversations, e2.1 ≠ "old")
    ∧ ("fresh", [tB, ⟨2, "u", "a", [], []⟩])
        ∈ ((m_reap.cleanup_old_sessions 3600 3601).2).conversations
    ∧ (m_reap.cleanup_old_sessions 3600 3601).1
        = (m_reap.conversations.filter (fun e => is_stale 3601 3600 e.2)).length := by
  refine ⟨?_, ?_, (C6_reap m_reap 3600 3601).2.2.1⟩
  · intro e2 h2
    exact ((C6_reap m_reap 3600 3601).2.1 ("old", [tA]) (by decide) (by decide)).1 e2 h2
  · exact (C6_reap m_reap 3600 3601).2.2.2 (by decide)
      ("fresh", [tB, ⟨2, "u", "a", [], []⟩]) (by decide) (by decide)

end Librarian
